import Mathlib

/-!
Verification of the 3D_Web asset-viewer core: the normalization pipeline, the
anchor-preserving transform composer, the camera view controller, and the
placement registry, shallowly embedded from
`src/components/ModelViewer.tsx` and the studio layout component.

Real-number quantities of the transform composer are modelled over `ℝ`
(the rotation needs `cos`/`sin`); the normalizer, registry and camera
state are modelled over `ℚ` so that concrete instances evaluate by `decide`.
-/

namespace Web3D

/-- A 3-component vector, the shape of three.js `Vector3` and of the
`[number, number, number]` triples used throughout the source. -/
structure Vec3 (α : Type) where
  x : α
  y : α
  z : α

deriving instance DecidableEq for Vec3

/-- Componentwise addition of vectors. -/
def addV {α : Type} [Add α] (a b : Vec3 α) : Vec3 α :=
  ⟨a.x + b.x, a.y + b.y, a.z + b.z⟩

/-- Componentwise (Hadamard) product, the effect of a three.js non-uniform
scale on a local point. -/
def mulV {α : Type} [Mul α] (a b : Vec3 α) : Vec3 α :=
  ⟨a.x * b.x, a.y * b.y, a.z * b.z⟩

/-- Scalar multiple of a vector (three.js `multiplyScalar`). -/
def smulV {α : Type} [Mul α] (s : α) (v : Vec3 α) : Vec3 α :=
  ⟨s * v.x, s * v.y, s * v.z⟩

/-! ## Anchor-preserving transform composer (`Model` in ModelViewer.tsx) -/

noncomputable section

/-- `adjustedPosition` from `Model` (ModelViewer.tsx lines 129-133):
each axis of the user position is shifted by the reference offset times
`(scale - 1)` so the bottom/left/front surfaces stay fixed while scaling.
`ref = (originalLeftX, originalBottomY, originalFrontZ)`. -/
def adjustedPosition (ref pos scale : Vec3 ℝ) : Vec3 ℝ :=
  ⟨pos.x - ref.x * (scale.x - 1),
   pos.y - ref.y * (scale.y - 1),
   pos.z - ref.z * (scale.z - 1)⟩

/-- Degrees to radians, from `rotation.map(r => r * Math.PI / 180)`. -/
def degToRad (d : ℝ) : ℝ := d * Real.pi / 180

/-- Rotation about the x-axis by `t` radians. -/
def rotX (t : ℝ) (v : Vec3 ℝ) : Vec3 ℝ :=
  ⟨v.x, Real.cos t * v.y - Real.sin t * v.z, Real.sin t * v.y + Real.cos t * v.z⟩

/-- Rotation about the y-axis by `t` radians. -/
def rotY (t : ℝ) (v : Vec3 ℝ) : Vec3 ℝ :=
  ⟨Real.cos t * v.x + Real.sin t * v.z, v.y, -Real.sin t * v.x + Real.cos t * v.z⟩

/-- Rotation about the z-axis by `t` radians. -/
def rotZ (t : ℝ) (v : Vec3 ℝ) : Vec3 ℝ :=
  ⟨Real.cos t * v.x - Real.sin t * v.y, Real.sin t * v.x + Real.cos t * v.y, v.z⟩

/-- Three.js Euler rotation in the default order used by the `<group>`
element, i.e. the matrix product `Rx * Ry * Rz` applied to a column
vector (three.js `Euler` order `XYZ`). -/
def applyEulerXYZ (r : Vec3 ℝ) (v : Vec3 ℝ) : Vec3 ℝ :=
  rotX r.x (rotY r.y (rotZ r.z v))

/-- The world-space image of a local point `p` under the `<group>` transform
of `Model` (ModelViewer.tsx lines 135-144): translate by
`adjustedPosition`, rotate by the user rotation (degrees, converted to
radians), scale componentwise by the user scale. Three.js composes an
object transform as `Translate ∘ Rotate ∘ Scale`. -/
def groupWorldPoint (ref pos scale rotDeg : Vec3 ℝ) (p : Vec3 ℝ) : Vec3 ℝ :=
  addV (adjustedPosition ref pos scale)
    (applyEulerXYZ ⟨degToRad rotDeg.x, degToRad rotDeg.y, degToRad rotDeg.z⟩
      (mulV scale p))

end

/-! ## Normalizer (the `loadModel` normalization stage, lines 94-113) -/

/-- An axis-aligned bounding box, the result of
`new THREE.Box3().setFromObject(...)`. -/
structure Box where
  lo : Vec3 ℚ
  hi : Vec3 ℚ

deriving instance DecidableEq for Box

/-- `box.getSize(...)`: the three extents `hi - lo`. -/
def boxSize (b : Box) : Vec3 ℚ :=
  ⟨b.hi.x - b.lo.x, b.hi.y - b.lo.y, b.hi.z - b.lo.z⟩

/-- JavaScript `Math.max` of two numbers. -/
def jsMax (a b : ℚ) : ℚ := if a < b then b else a

/-- `Math.max(size.x, size.y, size.z)`: the largest extent. -/
def maxDim (b : Box) : ℚ :=
  jsMax (jsMax (boxSize b).x (boxSize b).y) (boxSize b).z

/-- `const scale = 2 / maxDim;` — computed unconditionally by the source:
there is no check for a zero or non-finite `maxDim`. (Over `ℚ` a division
by zero yields `0`; in JavaScript it yields `Infinity`. Either way the
source performs the division rather than raising an error.) -/
def uniformScale (b : Box) : ℚ := 2 / maxDim b

/-- The bounding box recomputed after `loadedModel.scale.setScalar(scale)`:
for the nonnegative scales produced by normalization every corner is
multiplied by the uniform scale. -/
def scaledBox (b : Box) : Box :=
  ⟨smulV (uniformScale b) b.lo, smulV (uniformScale b) b.hi⟩

/-- `scaledBox.getCenter(...)`. -/
def scaledCenter (b : Box) : Vec3 ℚ :=
  ⟨((scaledBox b).lo.x + (scaledBox b).hi.x) / 2,
   ((scaledBox b).lo.y + (scaledBox b).hi.y) / 2,
   ((scaledBox b).lo.z + (scaledBox b).hi.z) / 2⟩

/-- `loadedModel.position.set(-scaledCenter.x, -scaledBox.min.y - 1, -scaledCenter.z)`:
horizontally centered, bottom face at `y = -1`. -/
def nodePosition (b : Box) : Vec3 ℚ :=
  ⟨-(scaledCenter b).x, -(scaledBox b).lo.y - 1, -(scaledCenter b).z⟩

/-- The stored reference metrics `(originalLeftX, originalBottomY, originalFrontZ)`
= `(-scaledBox.min.x, -scaledBox.min.y, -scaledBox.min.z)`, captured once at
load time (lines 110-113). -/
def referenceMetrics (b : Box) : Vec3 ℚ :=
  ⟨-(scaledBox b).lo.x, -(scaledBox b).lo.y, -(scaledBox b).lo.z⟩

/-- Translating a box moves both corners; the renderer-side bounding box of
the node after `loadedModel.position.set(...)`. -/
def translateBox (t : Vec3 ℚ) (b : Box) : Box :=
  ⟨addV b.lo t, addV b.hi t⟩

/-- The node's bounding box after the whole normalization (uniform scale,
then the grounding translation). -/
def normalizedBox (b : Box) : Box :=
  translateBox (nodePosition b) (scaledBox b)

/-! ## Placement registry and import surface (`StudioLayout`) -/

/-- JavaScript `String.prototype.toLowerCase` on the (ASCII) file names the
studio handles, as a total function on Lean strings. -/
def jsToLower (s : String) : String := String.mk (s.data.map Char.toLower)

/-- JavaScript `String.prototype.endsWith`. -/
def jsEndsWith (s pat : String) : Bool := pat.data.isSuffixOf s.data

/-- `sourceFormat` of a placed asset; the viewer's `PlacedModel.format`
union is `'gltf' | 'glb' | 'fbx'`. -/
inductive SourceFormat where
  | gltf
  | glb
  | fbx

deriving instance DecidableEq for SourceFormat

/-- One entry of the `models` state array of `StudioLayout`
(`{ id, name, url, format, position, scale, rotation }`). -/
structure Asset where
  id : String
  name : String
  url : String
  format : SourceFormat
  position : Vec3 ℚ
  scale : Vec3 ℚ
  rotation : Vec3 ℚ

deriving instance DecidableEq for Asset

/-- The studio state the import and edit handlers touch: the placement
registry (`models`) and the selection (`selectedId`). -/
structure StudioState where
  models : List Asset
  selectedId : Option String

deriving instance DecidableEq for StudioState

/-- The rejection alert of `handleImport`. -/
def importRejectMessage : String := "Only glTF or GLB supported for import."

/-- `handleImport` (StudioLayout lines 328-344): lower-case the file name,
reject unless it ends in `.gltf` or `.glb`, otherwise append a fresh asset
tagged `glb` when the name ends in `.glb` (else `gltf`) with default
transform, and select it. Returns the new state and the alert message, if
any. `newId` stands for the generated `crypto.randomUUID()` and `url` for
the object URL. -/
def handleImport (st : StudioState) (fileName newId url : String) :
    StudioState × Option String :=
  let lower := jsToLower fileName
  if !(jsEndsWith lower ".gltf") && !(jsEndsWith lower ".glb") then
    (st, some importRejectMessage)
  else
    let format := if jsEndsWith lower ".glb" then SourceFormat.glb else SourceFormat.gltf
    let item : Asset := ⟨newId, fileName, url, format, ⟨0, 0, 0⟩, ⟨1, 1, 1⟩, ⟨0, 0, 0⟩⟩
    (⟨st.models ++ [item], some newId⟩, none)

/-- The import followed by the viewer's load stage for the new asset.
`Model.loadModel` (ModelViewer.tsx lines 38-121) runs inside the viewer
after the registry append; its `catch` only logs the error
(`console.error`), so neither a successful nor a failed load touches the
studio state. `parse` stands for the external parser's outcome. -/
def importAndLoad (st : StudioState) (fileName newId url : String)
    (parse : Except String Unit) : StudioState × Option String :=
  let r := handleImport st fileName newId url
  match parse with
  | Except.ok _ => r
  | Except.error _ => r

/-- `setAxisJS p axis value` mirrors
`p.map((v, i) => i === axis ? value : v)` from the transform-edit
callbacks. -/
def setAxisJS (p : Vec3 ℚ) (axis : Fin 3) (value : ℚ) : Vec3 ℚ :=
  ⟨if (0 : Fin 3) = axis then value else p.x,
   if (1 : Fin 3) = axis then value else p.y,
   if (2 : Fin 3) = axis then value else p.z⟩

/-- `setSelectedPosition` (StudioLayout lines 348-350): map over the models,
updating the given axis of `position` on entries whose id equals the
selected id. When `selectedId` is `null`, `m.id === selectedId` is false. -/
def setSelectedPosition (selectedId : Option String) (axis : Fin 3) (value : ℚ)
    (models : List Asset) : List Asset :=
  models.map fun m =>
    if some m.id = selectedId then { m with position := setAxisJS m.position axis value } else m

/-- `setSelectedScale` (StudioLayout lines 352-354). -/
def setSelectedScale (selectedId : Option String) (axis : Fin 3) (value : ℚ)
    (models : List Asset) : List Asset :=
  models.map fun m =>
    if some m.id = selectedId then { m with scale := setAxisJS m.scale axis value } else m

/-- `setSelectedRotation` (StudioLayout lines 356-358). -/
def setSelectedRotation (selectedId : Option String) (axis : Fin 3) (value : ℚ)
    (models : List Asset) : List Asset :=
  models.map fun m =>
    if some m.id = selectedId then { m with rotation := setAxisJS m.rotation axis value } else m

/-- The three editable transform fields. -/
inductive TransformField where
  | position
  | scale
  | rotation

deriving instance DecidableEq for TransformField

/-- The spec's `updateTransform(id, field, axis, value)`, dispatching to the
three per-field callbacks of the source. -/
def updateTransform (selectedId : Option String) (f : TransformField) (axis : Fin 3)
    (value : ℚ) (models : List Asset) : List Asset :=
  match f with
  | TransformField.position => setSelectedPosition selectedId axis value models
  | TransformField.scale => setSelectedScale selectedId axis value models
  | TransformField.rotation => setSelectedRotation selectedId axis value models

/-- Read one transform field of an asset. -/
def fieldVec (f : TransformField) (m : Asset) : Vec3 ℚ :=
  match f with
  | TransformField.position => m.position
  | TransformField.scale => m.scale
  | TransformField.rotation => m.rotation

/-- Read one axis of a vector, mirroring index access `p[i]`. -/
def vecGet (v : Vec3 ℚ) (i : Fin 3) : ℚ :=
  if i = 0 then v.x else if i = 1 then v.y else v.z

/-- The body applied to a matching asset by the three edit callbacks. -/
def applyFieldUpdate (f : TransformField) (axis : Fin 3) (v : ℚ) (m : Asset) : Asset :=
  match f with
  | TransformField.position => { m with position := setAxisJS m.position axis v }
  | TransformField.scale => { m with scale := setAxisJS m.scale axis v }
  | TransformField.rotation => { m with rotation := setAxisJS m.rotation axis v }

/-! ## Camera view controller (`CameraController`, ModelViewer.tsx 162-222) -/

/-- The pose the controller mutates: `camera.position` and
`controls.target` (the orbit target; `controls.update()` resynchronizes the
orbit controls to this pose after a snap). -/
structure CameraState where
  pos : Vec3 ℚ
  target : Vec3 ℚ

deriving instance DecidableEq for CameraState

/-- `const distance = 8;` in `handleCameraViewChange`. -/
def cameraSnapDistance : ℚ := 8

/-- `handleCameraViewChange` (ModelViewer.tsx lines 167-204): a switch on
the view tag; each recognized tag sets an absolute camera position at
`distance` along one axis and the orbit target at the origin; the switch
has no default branch, so any other tag leaves the pose untouched. -/
def handleCameraViewChange (st : CameraState) (view : String) : CameraState :=
  if view = "front" then ⟨⟨0, 0, cameraSnapDistance⟩, ⟨0, 0, 0⟩⟩
  else if view = "back" then ⟨⟨0, 0, -cameraSnapDistance⟩, ⟨0, 0, 0⟩⟩
  else if view = "left" then ⟨⟨-cameraSnapDistance, 0, 0⟩, ⟨0, 0, 0⟩⟩
  else if view = "right" then ⟨⟨cameraSnapDistance, 0, 0⟩, ⟨0, 0, 0⟩⟩
  else if view = "top" then ⟨⟨0, cameraSnapDistance, 0⟩, ⟨0, 0, 0⟩⟩
  else if view = "bottom" then ⟨⟨0, -cameraSnapDistance, 0⟩, ⟨0, 0, 0⟩⟩
  else st

/-! ## FBX error discrimination (`Model`, ModelViewer.tsx lines 53-84) -/

/-- The substring the source inspects the parser's error text for. -/
def fbxVersionIndicator : String := "version not supported"

/-- The actionable message reported for an unsupported FBX version. -/
def fbxVersionMessage : String :=
  "FBX file version not supported. Please try a different FBX file or convert to glTF format."

/-- Substring search on character lists, the semantics of JavaScript
`String.prototype.includes`. -/
def jsIncludesAux (pat : List Char) : List Char → Bool
  | [] => pat.isEmpty
  | c :: rest => pat.isPrefixOf (c :: rest) || jsIncludesAux pat rest

/-- `s.includes(pat)` for JavaScript strings. -/
def jsIncludes (s pat : String) : Bool := jsIncludesAux pat.data s.data

/-- The message the FBX branch rejects with (lines 66-73): the distinct
version message when the parser's error text contains
`'version not supported'`, otherwise a generic
`` `FBX loading failed: ${error.message || 'Unknown error'}` ``. -/
def fbxErrorMessage (m : String) : String :=
  if jsIncludes m fbxVersionIndicator then fbxVersionMessage
  else "FBX loading failed: " ++ (if m = "" then "Unknown error" else m)

/-! ## Helper lemmas -/

/-- Translating a box does not change its extents. -/
theorem boxSize_translateBox (t : Vec3 ℚ) (b : Box) :
    boxSize (translateBox t b) = boxSize b := by
  cases b with
  | mk lo hi =>
    simp only [boxSize, translateBox, addV, Vec3.mk.injEq]
    refine ⟨by ring, by ring, by ring⟩

/-- A positive factor distributes over the JavaScript binary maximum. -/
theorem jsMax_smul {s a c : ℚ} (hs : 0 < s) :
    jsMax (s * a) (s * c) = s * jsMax a c := by
  unfold jsMax
  rcases lt_or_le a c with h | h
  · rw [if_pos h, if_pos ((mul_lt_mul_left hs).2 h)]
  · rw [if_neg (not_lt.2 h), if_neg (not_lt.2 ((mul_le_mul_left hs).2 h))]

/-- The extents of the scaled box are the uniform scale times the raw
extents. -/
theorem boxSize_scaledBox (b : Box) :
    boxSize (scaledBox b) = smulV (uniformScale b) (boxSize b) := by
  cases b with
  | mk lo hi =>
    simp only [boxSize, scaledBox, smulV, Vec3.mk.injEq]
    refine ⟨by ring, by ring, by ring⟩

/-- The largest extent of the witness box used below evaluates to `2`. -/
theorem maxDim_unitWitnessBox :
    maxDim ⟨⟨0, 0, 0⟩, ⟨1, 2, 1⟩⟩ = 2 := by
  norm_num [maxDim, boxSize, jsMax]

/-! ## C2 — normalization scale invariant -/

/-- C2: for every raw node whose largest bounding-box extent `maxDim` is
positive, normalization applies the uniform scalar `2 / maxDim`, so after
normalization (uniform scale followed by the grounding translation) the
largest extent of the node's bounding box equals exactly `2`, regardless
of the asset's native units. -/
theorem normalization_scales_largest_extent_to_two (b : Box) (h : 0 < maxDim b) :
    maxDim (normalizedBox b) = 2 := by
  have hs : 0 < uniformScale b := by
    unfold uniformScale
    positivity
  have hsize : boxSize (normalizedBox b) = smulV (uniformScale b) (boxSize b) := by
    rw [normalizedBox, boxSize_translateBox, boxSize_scaledBox]
  have hmax : maxDim (normalizedBox b) = uniformScale b * maxDim b := by
    unfold maxDim
    rw [hsize]
    simp only [smulV]
    rw [jsMax_smul hs, jsMax_smul hs]
  rw [hmax]
  unfold uniformScale
  exact div_mul_cancel₀ 2 (ne_of_gt h)

/-- Witness for C2 at a concrete box with native extents `(1, 2, 1)`. -/
theorem normalization_scales_largest_extent_to_two_witness :
    0 < maxDim ⟨⟨0, 0, 0⟩, ⟨1, 2, 1⟩⟩ ∧
      maxDim (normalizedBox ⟨⟨0, 0, 0⟩, ⟨1, 2, 1⟩⟩) = 2 := by
  have h : 0 < maxDim ⟨⟨0, 0, 0⟩, ⟨1, 2, 1⟩⟩ := by
    simp [maxDim_unitWitnessBox, zero_lt_two]
  exact ⟨h, normalization_scales_largest_extent_to_two ⟨⟨0, 0, 0⟩, ⟨1, 2, 1⟩⟩ h⟩

/-! ## C4 — degenerate geometry -/

/-- C4 (code bug): the source performs the division `2 / maxDim`
unconditionally — there is no degenerate-geometry check and no
`DegenerateGeometry` error kind anywhere in `loadModel` — so a zero-extent
node (a box degenerated to the single point `(3, 4, 5)`) is still
"normalized" and reference metrics are still stored. Over `ℚ` the
division by zero collapses to `0`; in the JavaScript source the same
division yields `Infinity` and the stored metrics become non-finite,
which is exactly what the claim says must not happen. -/
theorem degenerate_box_is_normalized_without_error :
    maxDim ⟨⟨3, 4, 5⟩, ⟨3, 4, 5⟩⟩ = 0 ∧
      uniformScale ⟨⟨3, 4, 5⟩, ⟨3, 4, 5⟩⟩ = 2 / 0 ∧
      referenceMetrics ⟨⟨3, 4, 5⟩, ⟨3, 4, 5⟩⟩ = ⟨0, 0, 0⟩ ∧
      nodePosition ⟨⟨3, 4, 5⟩, ⟨3, 4, 5⟩⟩ = ⟨0, -1, 0⟩ := by
  norm_num [maxDim, boxSize, jsMax, uniformScale, referenceMetrics, nodePosition,
    scaledCenter, scaledBox, smulV]

/-! ## C3 — identity composition -/

/-- C3: composing with `scale = (1,1,1)` and `rotation = (0,0,0)` yields
`adjustedPosition` exactly equal to `position` (no residual offset), and
the `<group>` transform maps every local point `p` to `position + p`: a
pure translation by `position`, with no rotation and no scale applied. -/
theorem identity_composition_is_pure_translation (ref pos p : Vec3 ℝ) :
    adjustedPosition ref pos ⟨1, 1, 1⟩ = pos ∧
      groupWorldPoint ref pos ⟨1, 1, 1⟩ ⟨0, 0, 0⟩ p = addV pos p := by
  have h0 : degToRad 0 = 0 := by
    unfold degToRad
    ring
  constructor
  · cases pos
    simp only [adjustedPosition, Vec3.mk.injEq]
    refine ⟨by ring, by ring, by ring⟩
  · simp only [groupWorldPoint, applyEulerXYZ, rotX, rotY, rotZ, adjustedPosition,
      mulV, addV, h0, Real.cos_zero, Real.sin_zero, Vec3.mk.injEq]
    refine ⟨by ring, by ring, by ring⟩

/-! ## C1 — anchor invariance under scale edits -/

/-- C1 (counterexample): with a fixed nonzero rotation the anchor corner
does move under a scale-only edit. Take `referenceMetrics = (1,0,0)`,
`position = (0,0,0)` and rotation `(0, 90, 0)` degrees: at
`scale = (1,1,1)` the composed transform sends the local anchor point
`(1,0,0)` to `(0,0,-1)`, while at `scale = (2,2,2)` it sends it to
`(-1,0,-2)`, because the anchor adjustment is applied outside the rotation
while the scaled offset is rotated. -/
theorem anchor_moves_under_scale_with_fixed_rotation :
    groupWorldPoint ⟨1, 0, 0⟩ ⟨0, 0, 0⟩ ⟨2, 2, 2⟩ ⟨0, 90, 0⟩ ⟨1, 0, 0⟩ ≠
      groupWorldPoint ⟨1, 0, 0⟩ ⟨0, 0, 0⟩ ⟨1, 1, 1⟩ ⟨0, 90, 0⟩ ⟨1, 0, 0⟩ := by
  have h90 : degToRad 90 = Real.pi / 2 := by
    unfold degToRad
    ring
  have h0 : degToRad 0 = 0 := by
    unfold degToRad
    ring
  intro h
  have hx := congrArg Vec3.x h
  simp only [groupWorldPoint, applyEulerXYZ, rotX, rotY, rotZ, adjustedPosition,
    mulV, addV, h90, h0, Real.cos_zero, Real.sin_zero, Real.cos_pi_div_two,
    Real.sin_pi_div_two] at hx
  norm_num at hx

/-- C1 (amended): with position held fixed and the rotation zero, the
world-space anchor corner — the image of the local point
`(leftX, bottomY, frontZ)` under the composed transform — equals
`position + (leftX, bottomY, frontZ)` at every scale, so scale-only edits
never move it; and for any rotation the transport the claim itself
specifies (the per-axis scale applied to the reference offsets, added to
`adjustedPosition = position - referenceMetrics * (scale - 1)`) also lands
at `position + (leftX, bottomY, frontZ)` for every scale. -/
theorem anchor_corner_invariant_under_scale (ref pos scale : Vec3 ℝ) :
    groupWorldPoint ref pos scale ⟨0, 0, 0⟩ ref = addV pos ref ∧
      addV (adjustedPosition ref pos scale) (mulV scale ref) = addV pos ref := by
  have h0 : degToRad 0 = 0 := by
    unfold degToRad
    ring
  constructor
  · simp only [groupWorldPoint, applyEulerXYZ, rotX, rotY, rotZ, adjustedPosition,
      mulV, addV, h0, Real.cos_zero, Real.sin_zero, Vec3.mk.injEq]
    refine ⟨by ring, by ring, by ring⟩
  · simp only [adjustedPosition, mulV, addV, Vec3.mk.injEq]
    refine ⟨by ring, by ring, by ring⟩

/-! ## C5 — import surface format gating -/

/-- C5 (counterexample): the import surface does not accept `.fbx`.
`handleImport` on `model.fbx` rejects with the alert and leaves the state
unchanged, although the claim says `.fbx` files are accepted and tagged. -/
theorem fbx_import_is_rejected :
    handleImport ⟨[], none⟩ "model.fbx" "id1" "u" =
      (⟨[], none⟩, some importRejectMessage) := by
  decide

/-- C5 (amended): the import surface accepts exactly the files whose
lower-cased name ends in `.gltf` or `.glb` (case-insensitive); every other
extension — including `.fbx` — is rejected with a user-facing alert before
any parsing, leaving the state unchanged; accepted files are appended with
the format tag matching the extension (`glb` when the name ends in `.glb`,
else `gltf`), default transform, and become selected. -/
theorem import_surface_accepts_exactly_gltf_glb
    (st : StudioState) (name nid url : String) :
    (jsEndsWith (jsToLower name) ".gltf" = false →
      jsEndsWith (jsToLower name) ".glb" = false →
      handleImport st name nid url = (st, some importRejectMessage)) ∧
    (jsEndsWith (jsToLower name) ".glb" = true →
      handleImport st name nid url =
        (⟨st.models ++ [⟨nid, name, url, SourceFormat.glb, ⟨0, 0, 0⟩, ⟨1, 1, 1⟩, ⟨0, 0, 0⟩⟩],
          some nid⟩, none)) ∧
    (jsEndsWith (jsToLower name) ".gltf" = true →
      jsEndsWith (jsToLower name) ".glb" = false →
      handleImport st name nid url =
        (⟨st.models ++ [⟨nid, name, url, SourceFormat.gltf, ⟨0, 0, 0⟩, ⟨1, 1, 1⟩, ⟨0, 0, 0⟩⟩],
          some nid⟩, none)) := by
  refine ⟨fun h1 h2 => ?_, fun h => ?_, fun h1 h2 => ?_⟩
  · simp [handleImport, h1, h2]
  · simp [handleImport, h]
  · simp [handleImport, h1, h2]

/-- Witness for C5 (amended) at `model.obj` (rejected), `MODEL.GLB`
(accepted case-insensitively, tagged `glb`) and `model.gltf` (accepted,
tagged `gltf`). -/
theorem import_surface_accepts_exactly_gltf_glb_witness :
    handleImport ⟨[], none⟩ "model.obj" "i1" "u1" = (⟨[], none⟩, some importRejectMessage) ∧
    handleImport ⟨[], none⟩ "MODEL.GLB" "i2" "u2" =
      (⟨[⟨"i2", "MODEL.GLB", "u2", SourceFormat.glb, ⟨0, 0, 0⟩, ⟨1, 1, 1⟩, ⟨0, 0, 0⟩⟩],
        some "i2"⟩, none) ∧
    handleImport ⟨[], none⟩ "model.gltf" "i3" "u3" =
      (⟨[⟨"i3", "model.gltf", "u3", SourceFormat.gltf, ⟨0, 0, 0⟩, ⟨1, 1, 1⟩, ⟨0, 0, 0⟩⟩],
        some "i3"⟩, none) := by
  refine ⟨?_, ?_, ?_⟩
  · exact (import_surface_accepts_exactly_gltf_glb ⟨[], none⟩ "model.obj" "i1" "u1").1
      (by decide) (by decide)
  · have h := (import_surface_accepts_exactly_gltf_glb ⟨[], none⟩ "MODEL.GLB" "i2" "u2").2.1
      (by decide)
    simpa using h
  · have h := (import_surface_accepts_exactly_gltf_glb ⟨[], none⟩ "model.gltf" "i3" "u3").2.2
      (by decide) (by decide)
    simpa using h

/-! ## C6 — failure recovery and the registry -/

/-- C6 (counterexample): an accepted file whose load later fails does
leave a `PlacedAsset` record in the registry (and moves the selection),
because `handleImport` appends the record before the viewer ever parses
the file and the load failure is only logged. Importing `bad.glb` whose
parse errors leaves a record for it in `models`, refuting "no PlacedAsset
record for the failed file remains in the registry — and selection is
unchanged". -/
theorem failed_load_leaves_record_in_registry :
    (importAndLoad ⟨[], none⟩ "bad.glb" "id1" "u" (Except.error "Invalid file")).1.models ≠ [] ∧
      (importAndLoad ⟨[], none⟩ "bad.glb" "id1" "u" (Except.error "Invalid file")).1.selectedId ≠
        none := by
  decide

/-- C6 (amended): the load outcome never touches the studio state — the
viewer's `catch` only logs, so the session survives any load or
normalization failure with the registry exactly as the import left it —
and an import rejected at the extension gate leaves registry and selection
unchanged. A load failure of an accepted file, however, happens after the
append, so that record remains. -/
theorem import_failure_recovery
    (st : StudioState) (name nid url : String) (p q : Except String Unit) :
    importAndLoad st name nid url p = importAndLoad st name nid url q ∧
    (jsEndsWith (jsToLower name) ".gltf" = false →
      jsEndsWith (jsToLower name) ".glb" = false →
      importAndLoad st name nid url p = (st, some importRejectMessage)) := by
  constructor
  · cases p <;> cases q <;> rfl
  · intro h1 h2
    cases p <;> simp [importAndLoad, handleImport, h1, h2]

/-- Witness for C6 (amended): a failing and a succeeding parse of the
same import give the same state, and a `model.obj` import is rejected in
place. -/
theorem import_failure_recovery_witness :
    importAndLoad ⟨[], none⟩ "a.glb" "i1" "u" (Except.error "boom") =
      importAndLoad ⟨[], none⟩ "a.glb" "i1" "u" (Except.ok ()) ∧
    importAndLoad ⟨[], none⟩ "model.obj" "i2" "u" (Except.error "boom") =
      (⟨[], none⟩, some importRejectMessage) := by
  refine ⟨?_, ?_⟩
  · exact (import_failure_recovery ⟨[], none⟩ "a.glb" "i1" "u"
      (Except.error "boom") (Except.ok ())).1
  · exact (import_failure_recovery ⟨[], none⟩ "model.obj" "i2" "u"
      (Except.error "boom") (Except.error "boom")).2 (by decide) (by decide)

/-! ## C7 — camera snap poses and idempotence -/

/-- C7: each of the six canonical view tags snaps the camera to
`distance * axisUnitVector(view)` with `distance = 8` and the orbit target
to the world origin, independently of the previous pose; and handling the
same tag twice in succession yields the identical pose both times. -/
theorem camera_snap_views_and_idempotence :
    (∀ st : CameraState,
      handleCameraViewChange st "front" = ⟨⟨0, 0, 8⟩, ⟨0, 0, 0⟩⟩ ∧
      handleCameraViewChange st "back" = ⟨⟨0, 0, -8⟩, ⟨0, 0, 0⟩⟩ ∧
      handleCameraViewChange st "left" = ⟨⟨-8, 0, 0⟩, ⟨0, 0, 0⟩⟩ ∧
      handleCameraViewChange st "right" = ⟨⟨8, 0, 0⟩, ⟨0, 0, 0⟩⟩ ∧
      handleCameraViewChange st "top" = ⟨⟨0, 8, 0⟩, ⟨0, 0, 0⟩⟩ ∧
      handleCameraViewChange st "bottom" = ⟨⟨0, -8, 0⟩, ⟨0, 0, 0⟩⟩) ∧
    ∀ (st : CameraState) (view : String),
      handleCameraViewChange (handleCameraViewChange st view) view =
        handleCameraViewChange st view := by
  constructor
  · intro st
    refine ⟨rfl, rfl, rfl, rfl, rfl, rfl⟩
  · intro st view
    unfold handleCameraViewChange
    split_ifs <;> rfl

/-! ## C10 — unrecognized view tags -/

/-- C10: a camera-view event whose tag is not one of the six recognized
values falls through the switch (which has no default branch) and leaves
camera position and orbit target unchanged. -/
theorem unrecognized_camera_view_is_ignored (st : CameraState) (view : String)
    (h : view ∉ (["front", "back", "left", "right", "top", "bottom"] : List String)) :
    handleCameraViewChange st view = st := by
  simp only [List.mem_cons, List.not_mem_nil, or_false, not_or] at h
  obtain ⟨h1, h2, h3, h4, h5, h6⟩ := h
  unfold handleCameraViewChange
  rw [if_neg h1, if_neg h2, if_neg h3, if_neg h4, if_neg h5, if_neg h6]

/-- Witness for C10 at the unrecognized tag `iso`. -/
theorem unrecognized_camera_view_is_ignored_witness :
    "iso" ∉ (["front", "back", "left", "right", "top", "bottom"] : List String) ∧
      handleCameraViewChange ⟨⟨1, 2, 3⟩, ⟨4, 5, 6⟩⟩ "iso" = ⟨⟨1, 2, 3⟩, ⟨4, 5, 6⟩⟩ :=
  ⟨by decide, unrecognized_camera_view_is_ignored ⟨⟨1, 2, 3⟩, ⟨4, 5, 6⟩⟩ "iso" (by decide)⟩

/-! ## C8 — FBX error discrimination -/

/-- A generic FBX failure message can never collide with the distinct
version message: the two differ already in their first twenty characters. -/
theorem fbx_generic_message_ne_version (m : String) :
    ("FBX loading failed: " ++ m) ≠ fbxVersionMessage := by
  intro h
  have hd := congrArg String.data h
  rw [String.data_append] at hd
  have hlen : ("FBX loading failed: " : String).data.length = 20 := by decide
  have ht := congrArg (List.take 20) hd
  rw [List.take_left' hlen] at ht
  exact absurd ht (by decide)

/-- C8: the FBX branch reports the distinct version message exactly when
the parser's error text contains `'version not supported'`, and a generic
parse-failure message otherwise; the two outputs are never conflated. -/
theorem fbx_version_error_discrimination (m₁ m₂ : String)
    (h₁ : jsIncludes m₁ fbxVersionIndicator = true)
    (h₂ : jsIncludes m₂ fbxVersionIndicator = false) :
    fbxErrorMessage m₁ = fbxVersionMessage ∧
      fbxErrorMessage m₂ ≠ fbxVersionMessage ∧
      fbxErrorMessage m₁ ≠ fbxErrorMessage m₂ := by
  have e1 : fbxErrorMessage m₁ = fbxVersionMessage := by
    simp [fbxErrorMessage, h₁]
  have e2 : fbxErrorMessage m₂ =
      "FBX loading failed: " ++ (if m₂ = "" then "Unknown error" else m₂) := by
    simp [fbxErrorMessage, h₂]
  refine ⟨e1, ?_, ?_⟩
  · rw [e2]
    exact fbx_generic_message_ne_version _
  · rw [e1, e2]
    exact (fbx_generic_message_ne_version _).symm

/-- Witness for C8 with a version-unsupported parser text and a generic
one. -/
theorem fbx_version_error_discrimination_witness :
    jsIncludes "version not supported" fbxVersionIndicator = true ∧
      jsIncludes "corrupt node" fbxVersionIndicator = false ∧
      fbxErrorMessage "version not supported" = fbxVersionMessage ∧
      fbxErrorMessage "version not supported" ≠ fbxErrorMessage "corrupt node" := by
  have h := fbx_version_error_discrimination "version not supported" "corrupt node"
    (by decide) (by decide)
  exact ⟨by decide, by decide, h.1, h.2.2⟩

/-! ## C9 — transform edits target only the selected asset -/

/-- `updateTransform` is one map over the registry, updating exactly the
entries whose id matches the selection. -/
theorem updateTransform_eq_map (sel : Option String) (f : TransformField)
    (axis : Fin 3) (v : ℚ) (models : List Asset) :
    updateTransform sel f axis v models =
      models.map fun m => if some m.id = sel then applyFieldUpdate f axis v m else m := by
  cases f <;> rfl

/-- Writing an axis stores the new value at that axis. -/
theorem vecGet_setAxisJS_self (p : Vec3 ℚ) (a : Fin 3) (v : ℚ) :
    vecGet (setAxisJS p a v) a = v := by
  fin_cases a <;> rfl

/-- Writing an axis leaves the other two axes unchanged. -/
theorem vecGet_setAxisJS_other (p : Vec3 ℚ) (a j : Fin 3) (v : ℚ) (h : j ≠ a) :
    vecGet (setAxisJS p a v) j = vecGet p j := by
  fin_cases a <;> fin_cases j <;> simp_all [setAxisJS, vecGet]

/-- The edit body preserves the identity fields of the asset. -/
theorem applyFieldUpdate_preserves_identity (f : TransformField) (axis : Fin 3)
    (v : ℚ) (m : Asset) :
    (applyFieldUpdate f axis v m).id = m.id ∧
      (applyFieldUpdate f axis v m).name = m.name ∧
      (applyFieldUpdate f axis v m).url = m.url ∧
      (applyFieldUpdate f axis v m).format = m.format := by
  cases f <;> exact ⟨rfl, rfl, rfl, rfl⟩

/-- The edit body rewrites the named field through `setAxisJS`. -/
theorem fieldVec_applyFieldUpdate_self (f : TransformField) (axis : Fin 3)
    (v : ℚ) (m : Asset) :
    fieldVec f (applyFieldUpdate f axis v m) = setAxisJS (fieldVec f m) axis v := by
  cases f <;> rfl

/-- The edit body leaves the other two fields unchanged. -/
theorem fieldVec_applyFieldUpdate_other (f g : TransformField) (axis : Fin 3)
    (v : ℚ) (m : Asset) (h : g ≠ f) :
    fieldVec g (applyFieldUpdate f axis v m) = fieldVec g m := by
  cases f <;> cases g <;> simp_all [applyFieldUpdate, fieldVec]

/-- C9: a transform edit updates exactly the named axis of the named field
on the assets whose id equals the current selection: every other asset is
unchanged, the identity fields and the other two fields of a matching
asset are unchanged, the other two axes of the edited field are unchanged,
and if no asset matches the selection the registry is unchanged. -/
theorem transform_edit_targets_only_selected
    (sel : Option String) (f : TransformField) (axis : Fin 3) (v : ℚ)
    (models : List Asset) :
    ((∀ m ∈ models, some m.id ≠ sel) → updateTransform sel f axis v models = models) ∧
      (updateTransform sel f axis v models).length = models.length ∧
      ∀ (i : ℕ) (m : Asset), models[i]? = some m →
        (some m.id ≠ sel → (updateTransform sel f axis v models)[i]? = some m) ∧
        (some m.id = sel →
          ∃ m', (updateTransform sel f axis v models)[i]? = some m' ∧
            m'.id = m.id ∧ m'.name = m.name ∧ m'.url = m.url ∧ m'.format = m.format ∧
            vecGet (fieldVec f m') axis = v ∧
            (∀ j : Fin 3, j ≠ axis → vecGet (fieldVec f m') j = vecGet (fieldVec f m) j) ∧
            ∀ g : TransformField, g ≠ f → fieldVec g m' = fieldVec g m) := by
  rw [updateTransform_eq_map]
  refine ⟨?_, by simp, ?_⟩
  · intro hnone
    induction models with
    | nil => rfl
    | cons a t ih =>
      simp only [List.map_cons, List.cons.injEq]
      constructor
      · rw [if_neg (hnone a (List.mem_cons_self a t))]
      · exact ih fun m hm => hnone m (List.mem_cons_of_mem a hm)
  · intro i m hm
    constructor
    · intro hne
      rw [List.getElem?_map, hm]
      simp [if_neg hne]
    · intro heq
      refine ⟨applyFieldUpdate f axis v m, ?_, ?_, ?_, ?_, ?_, ?_, ?_, ?_⟩
      · rw [List.getElem?_map, hm]
        simp [if_pos heq]
      · exact (applyFieldUpdate_preserves_identity f axis v m).1
      · exact (applyFieldUpdate_preserves_identity f axis v m).2.1
      · exact (applyFieldUpdate_preserves_identity f axis v m).2.2.1
      · exact (applyFieldUpdate_preserves_identity f axis v m).2.2.2
      · rw [fieldVec_applyFieldUpdate_self]
        exact vecGet_setAxisJS_self (fieldVec f m) axis v
      · intro j hj
        rw [fieldVec_applyFieldUpdate_self]
        exact vecGet_setAxisJS_other (fieldVec f m) axis j v hj
      · intro g hg
        exact fieldVec_applyFieldUpdate_other f g axis v m hg

/-- Witness for C9 on a two-asset registry: a selection matching no id
leaves the registry unchanged, and an edit with asset `a` selected stores
the new value at the edited axis of its position. -/
theorem transform_edit_targets_only_selected_witness :
    updateTransform (some "q") TransformField.position 1 5
        [⟨"a", "a.glb", "u1", SourceFormat.glb, ⟨0, 0, 0⟩, ⟨1, 1, 1⟩, ⟨0, 0, 0⟩⟩,
         ⟨"b", "b.glb", "u2", SourceFormat.glb, ⟨0, 0, 0⟩, ⟨1, 1, 1⟩, ⟨0, 0, 0⟩⟩] =
      [⟨"a", "a.glb", "u1", SourceFormat.glb, ⟨0, 0, 0⟩, ⟨1, 1, 1⟩, ⟨0, 0, 0⟩⟩,
       ⟨"b", "b.glb", "u2", SourceFormat.glb, ⟨0, 0, 0⟩, ⟨1, 1, 1⟩, ⟨0, 0, 0⟩⟩] ∧
    ∃ m', (updateTransform (some "a") TransformField.position 1 5
        [⟨"a", "a.glb", "u1", SourceFormat.glb, ⟨0, 0, 0⟩, ⟨1, 1, 1⟩, ⟨0, 0, 0⟩⟩,
         ⟨"b", "b.glb", "u2", SourceFormat.glb, ⟨0, 0, 0⟩, ⟨1, 1, 1⟩, ⟨0, 0, 0⟩⟩])[0]? =
        some m' ∧ vecGet (fieldVec TransformField.position m') 1 = 5 := by
  constructor
  · exact (transform_edit_targets_only_selected (some "q") TransformField.position 1 5
      [⟨"a", "a.glb", "u1", SourceFormat.glb, ⟨0, 0, 0⟩, ⟨1, 1, 1⟩, ⟨0, 0, 0⟩⟩,
       ⟨"b", "b.glb", "u2", SourceFormat.glb, ⟨0, 0, 0⟩, ⟨1, 1, 1⟩, ⟨0, 0, 0⟩⟩]).1 (by decide)
  · obtain ⟨m', hget, _, _, _, _, hval, _, _⟩ :=
      ((transform_edit_targets_only_selected (some "a") TransformField.position 1 5
        [⟨"a", "a.glb", "u1", SourceFormat.glb, ⟨0, 0, 0⟩, ⟨1, 1, 1⟩, ⟨0, 0, 0⟩⟩,
         ⟨"b", "b.glb", "u2", SourceFormat.glb, ⟨0, 0, 0⟩, ⟨1, 1, 1⟩, ⟨0, 0, 0⟩⟩]).2.2 0
        ⟨"a", "a.glb", "u1", SourceFormat.glb, ⟨0, 0, 0⟩, ⟨1, 1, 1⟩, ⟨0, 0, 0⟩⟩ rfl).2 rfl
    exact ⟨m', hget, hval⟩

end Web3D
